import Mathlib

/-!
Shallow embedding of `snorkel/classification/training/loggers/log_writer.py`
(`class LogWriter`).  Python state is passed explicitly: a `LogWriter`
structure mirrors the instance attributes (`config`, `run_name`, `log_dir`,
`run_log`), and a small filesystem model `FS` records the directories that
exist and the contents written to each path.  `json.dump` is modelled
semantically: a written JSON file stores the JSON value it serializes, so
"the file parses back to v" is "the stored value is v".  Scalars (Python
floats that are only stored and never computed with) are embedded as `ℚ`.
-/

set_option autoImplicit false

/-- JSON values, as produced by Python `json.dump`.  Object fields are kept
in insertion order, matching Python dict semantics. -/
inductive Json where
  | null : Json
  | bool : Bool → Json
  | num : ℚ → Json
  | str : String → Json
  | arr : List Json → Json
  | obj : List (String × Json) → Json

/-- Content of a file on disk: either raw text (from `f.write(text)`) or a
serialized JSON value (from `json.dump(v, f)`). -/
inductive FileContent where
  | text : String → FileContent
  | json : Json → FileContent

/-- Filesystem model: the set of existing directories and a map from path to
file content (`writeFile` overwrites, like opening with mode "w"). -/
structure FS where
  dirs : List String
  files : List (String × FileContent)

/-- Model of `os.path.exists` restricted to directories. -/
def FS.dirExists (fs : FS) (p : String) : Bool :=
  fs.dirs.contains p

/-- The chain of paths `os.makedirs` creates: every leading component of the
path as well as the path itself. -/
def makedirsChain (p : String) : List String :=
  let parts := p.splitOn "/"
  (List.range parts.length).map (fun i => String.intercalate "/" (parts.take (i + 1)))

/-- Model of `os.makedirs(p)`: `p` and all of its ancestors now exist. -/
def FS.makedirs (fs : FS) (p : String) : FS :=
  ⟨p :: makedirsChain p ++ fs.dirs, fs.files⟩

/-- Model of `open(p, "w")` followed by a single write: the new content
replaces whatever was at `p` before. -/
def FS.writeFile (fs : FS) (p : String) (c : FileContent) : FS :=
  ⟨fs.dirs, (p, c) :: fs.files.filter (fun q => q.1 != p)⟩

/-- Content currently stored at path `p`, if any. -/
def FS.readFile (fs : FS) (p : String) : Option FileContent :=
  (fs.files.find? (fun q => q.1 == p)).map (fun q => q.2)

/-- Whether `pre` is a leading segment of `s` (Python `str.startswith`),
spelled over the character list so the kernel can evaluate it. -/
def strStartsWith (s pre : String) : Bool :=
  decide (s.data.take pre.data.length = pre.data)

/-- Whether `suf` is a trailing segment of `s` (Python `str.endswith`),
spelled over the character list so the kernel can evaluate it. -/
def strEndsWith (s suf : String) : Bool :=
  decide (s.data.drop (s.data.length - suf.data.length) = suf.data)

/-- Model of POSIX `os.path.join(a, b)` for two components. -/
def pathJoin (a b : String) : String :=
  if strStartsWith b "/" then b
  else if a = "" then b
  else if strEndsWith a "/" then a ++ b
  else a ++ "/" ++ b

/-- The two configuration keys `LogWriter.__init__` reads from the merged
configuration: `run_name` (`none` models JSON null / missing) and
`log_dir`. -/
structure LogWriterConfig where
  run_name : Option String
  log_dir : String

/-- A wall-clock instant, the argument the embedding passes in place of the
`datetime.now()` calls. -/
structure DateTime where
  year : Nat
  month : Nat
  day : Nat
  hour : Nat
  minute : Nat
  second : Nat

/-- Zero-padding to two digits, as in the strftime field `%m`. -/
def pad2 (n : Nat) : String :=
  if n < 10 then "0" ++ toString n else toString n

/-- Zero-padding to four digits, as in the strftime field `%Y`. -/
def pad4 (n : Nat) : String :=
  if n < 10 then "000" ++ toString n
  else if n < 100 then "00" ++ toString n
  else if n < 1000 then "0" ++ toString n
  else toString n

/-- Model of `datetime.now().strftime("%Y_%m_%d")`. -/
def strftimeDate (t : DateTime) : String :=
  pad4 t.year ++ "_" ++ pad2 t.month ++ "_" ++ pad2 t.day

/-- Model of `datetime.now().strftime("%H_%M_%S")`. -/
def strftimeTime (t : DateTime) : String :=
  pad2 t.hour ++ "_" ++ pad2 t.minute ++ "_" ++ pad2 t.second

/-- The run name `self.config["run_name"] or f"\x7bdate\x7d/\x7btime\x7d/"`
resolves to: the configured name when truthy, else the date/time form. -/
def resolveRunName (c : Option String) (t : DateTime) : String :=
  match c with
  | none => strftimeDate t ++ "/" ++ strftimeTime t ++ "/"
  | some s => if s = "" then strftimeDate t ++ "/" ++ strftimeTime t ++ "/" else s

/-- The in-memory scalar store `self.run_log`: metric name to the ordered
list of `[step, value]` pairs, keys in insertion order (a Python
`defaultdict(list)`). -/
abbrev RunLog : Type := List (String × List (ℚ × ℚ))

/-- The `LogWriter` instance attributes. -/
structure LogWriter where
  config : LogWriterConfig
  run_name : String
  log_dir : String
  run_log : RunLog

/-- Model of `LogWriter.__init__`: resolve the run name, join the log
directory, create it if absent, start with an empty scalar store.  The
merged configuration and the clock readings are parameters. -/
def LogWriter.init (cfg : LogWriterConfig) (now : DateTime) (fs : FS) :
    LogWriter × FS :=
  let rn := resolveRunName cfg.run_name now
  let ld := pathJoin cfg.log_dir rn
  let fs2 := if fs.dirExists ld then fs else fs.makedirs ld
  (⟨cfg, rn, ld, []⟩, fs2)

/-- Model of `self.run_log[name].append([step, value])` on a
`defaultdict(list)`: append to the entry for `name`, creating it (at the
end, in insertion order) if absent. -/
def appendEntry (log : RunLog) (name : String) (p : ℚ × ℚ) : RunLog :=
  match log with
  | [] => [(name, [p])]
  | (n, ps) :: rest =>
    if n = name then (n, ps ++ [p]) :: rest
    else (n, ps) :: appendEntry rest name p

/-- Model of `LogWriter.add_scalar(name, value, step)`. -/
def LogWriter.add_scalar (w : LogWriter) (name : String) (value step : ℚ) :
    LogWriter :=
  ⟨w.config, w.run_name, w.log_dir, appendEntry w.run_log name (step, value)⟩

/-- Lookup of a metric name in the scalar store. -/
def lookupLog (log : RunLog) (name : String) : Option (List (ℚ × ℚ)) :=
  match log with
  | [] => none
  | (n, ps) :: rest => if n = name then some ps else lookupLog rest name

/-- JSON serialization of one metric sequence: an array of `[step, value]`
two-element arrays. -/
def jsonOfPairs (ps : List (ℚ × ℚ)) : Json :=
  Json.arr (ps.map (fun p => Json.arr [Json.num p.1, Json.num p.2]))

/-- JSON serialization of the whole scalar store, keys in insertion order. -/
def jsonOfRunLog (log : RunLog) : Json :=
  Json.obj (log.map (fun e => (e.1, jsonOfPairs e.2)))

/-- Model of `LogWriter.write_json(v, filename)`: the returned Bool records
whether the non-fatal extension warning was emitted; the write happens in
either case.  The instance itself is not mutated. -/
def LogWriter.write_json (w : LogWriter) (v : Json) (filename : String)
    (fs : FS) : LogWriter × FS × Bool :=
  let warn := !(strEndsWith filename ".json")
  (w, fs.writeFile (pathJoin w.log_dir filename) (FileContent.json v), warn)

/-- Model of `LogWriter.write_config(config, config_filename)`, which
delegates to `write_json`. -/
def LogWriter.write_config (w : LogWriter) (c : Json) (filename : String)
    (fs : FS) : LogWriter × FS × Bool :=
  w.write_json c filename fs

/-- `write_config` at its default filename argument `"config.json"`. -/
def LogWriter.write_config_default (w : LogWriter) (c : Json) (fs : FS) :
    LogWriter × FS × Bool :=
  w.write_config c "config.json" fs

/-- Model of `LogWriter.write_log(log_filename)`: serialize the current
`run_log`. -/
def LogWriter.write_log (w : LogWriter) (filename : String) (fs : FS) :
    LogWriter × FS × Bool :=
  w.write_json (jsonOfRunLog w.run_log) filename fs

/-- Model of `LogWriter.write_text(text, filename)`: `f.write(text)` stores
exactly `text`. -/
def LogWriter.write_text (w : LogWriter) (text : String) (filename : String)
    (fs : FS) : LogWriter × FS :=
  (w, fs.writeFile (pathJoin w.log_dir filename) (FileContent.text text))

/-- Model of `LogWriter.close()`: the body is `pass`. -/
def LogWriter.close (w : LogWriter) (fs : FS) : LogWriter × FS :=
  (w, fs)

/-- Iterating `close` a given number of times. -/
def closeIter (w : LogWriter) (fs : FS) : Nat → LogWriter × FS
  | 0 => (w, fs)
  | n + 1 =>
    let r := closeIter w fs n
    LogWriter.close r.1 r.2

/-- Folding a sequence of `add_scalar` calls, all on the same metric name;
each element of `calls` is a `(value, step)` argument pair, in call order. -/
def applyScalars (w : LogWriter) (name : String) (calls : List (ℚ × ℚ)) :
    LogWriter :=
  calls.foldl (fun acc c => acc.add_scalar name c.1 c.2) w

/-- States an instance can be in: constructed, then any interleaving of the
public methods. -/
inductive Reachable : LogWriter → FS → Prop where
  | init (cfg : LogWriterConfig) (now : DateTime) (fs : FS) :
      Reachable (LogWriter.init cfg now fs).1 (LogWriter.init cfg now fs).2
  | add_scalar {w : LogWriter} {fs : FS} (name : String) (value step : ℚ) :
      Reachable w fs → Reachable (w.add_scalar name value step) fs
  | write_json {w : LogWriter} {fs : FS} (v : Json) (fn : String) :
      Reachable w fs →
      Reachable (w.write_json v fn fs).1 (w.write_json v fn fs).2.1
  | write_config {w : LogWriter} {fs : FS} (c : Json) (fn : String) :
      Reachable w fs →
      Reachable (w.write_config c fn fs).1 (w.write_config c fn fs).2.1
  | write_log {w : LogWriter} {fs : FS} (fn : String) :
      Reachable w fs →
      Reachable (w.write_log fn fs).1 (w.write_log fn fs).2.1
  | write_text {w : LogWriter} {fs : FS} (t fn : String) :
      Reachable w fs →
      Reachable (w.write_text t fn fs).1 (w.write_text t fn fs).2
  | close {w : LogWriter} {fs : FS} :
      Reachable w fs → Reachable (w.close fs).1 (w.close fs).2

example :
    (LogWriter.init ⟨none, "logs"⟩ ⟨2019, 7, 4, 12, 30, 45⟩ ⟨[], []⟩).1.run_name
      = "2019_07_04/12_30_45/" := by rfl

example :
    pathJoin "logs" "2019_07_04/12_30_45/" = "logs/2019_07_04/12_30_45/" := by
  decide

/-! Helper lemmas shared by several claims. -/

theorem readFile_writeFile (fs : FS) (p : String) (c : FileContent) :
    (fs.writeFile p c).readFile p = some c := by
  simp [FS.readFile, FS.writeFile, List.find?]

theorem applyScalars_run_log (name : String) (calls : List (ℚ × ℚ))
    (w : LogWriter) :
    (applyScalars w name calls).run_log
      = calls.foldl (fun log c => appendEntry log name (c.2, c.1)) w.run_log := by
  induction calls generalizing w with
  | nil => rfl
  | cons c rest ih => exact ih (w.add_scalar name c.1 c.2)

theorem applyScalars_log_dir (name : String) (calls : List (ℚ × ℚ))
    (w : LogWriter) :
    (applyScalars w name calls).log_dir = w.log_dir := by
  induction calls generalizing w with
  | nil => rfl
  | cons c rest ih => exact ih (w.add_scalar name c.1 c.2)

theorem foldl_appendEntry_single (name : String) (calls : List (ℚ × ℚ)) :
    ∀ ps : List (ℚ × ℚ),
      calls.foldl (fun log c => appendEntry log name (c.2, c.1)) [(name, ps)]
        = [(name, ps ++ calls.map (fun c => (c.2, c.1)))] := by
  induction calls with
  | nil => intro ps; simp
  | cons c rest ih =>
    intro ps
    have hstep : appendEntry [(name, ps)] name (c.2, c.1)
        = [(name, ps ++ [(c.2, c.1)])] := by simp [appendEntry]
    calc List.foldl (fun log c => appendEntry log name (c.2, c.1))
          [(name, ps)] (c :: rest)
        = List.foldl (fun log c => appendEntry log name (c.2, c.1))
          (appendEntry [(name, ps)] name (c.2, c.1)) rest := rfl
      _ = [(name, ps ++ (c.2, c.1) :: List.map (fun c => (c.2, c.1)) rest)] := by
          rw [hstep, ih (ps ++ [(c.2, c.1)])]; simp
      _ = [(name, ps ++ List.map (fun c => (c.2, c.1)) (c :: rest))] := rfl

theorem lookupLog_appendEntry_ne (log : RunLog) (name m : String)
    (p : ℚ × ℚ) (h : m ≠ name) :
    lookupLog (appendEntry log name p) m = lookupLog log m := by
  induction log with
  | nil => simp [appendEntry, lookupLog, Ne.symm h]
  | cons e rest ih =>
    obtain ⟨n, ps⟩ := e
    by_cases hn : n = name
    · subst hn
      simp [appendEntry, lookupLog, Ne.symm h]
    · simp only [appendEntry, if_neg hn, lookupLog]
      by_cases hm : n = m
      · simp [hm]
      · simp [hm, ih]

theorem appendEntry_values_ne_nil (log : RunLog) (name : String) (p : ℚ × ℚ)
    (h : ∀ e ∈ log, e.2 ≠ []) :
    ∀ e ∈ appendEntry log name p, e.2 ≠ [] := by
  induction log with
  | nil => simp [appendEntry]
  | cons hd rest ih =>
    obtain ⟨n, ps⟩ := hd
    by_cases hn : n = name
    · subst hn
      simp only [appendEntry, if_pos rfl]
      intro e he
      rcases List.mem_cons.mp he with h1 | h2
      · subst h1; simp
      · exact h e (List.mem_cons_of_mem _ h2)
    · simp only [appendEntry, if_neg hn]
      intro e he
      rcases List.mem_cons.mp he with h1 | h2
      · subst h1; exact h (n, ps) (by simp)
      · exact ih (fun e2 he2 => h e2 (List.mem_cons_of_mem _ he2)) e h2

theorem reachable_values_ne_nil {w : LogWriter} {fs : FS}
    (h : Reachable w fs) : ∀ e ∈ w.run_log, e.2 ≠ [] := by
  induction h with
  | init cfg now fs => simp [LogWriter.init]
  | add_scalar name value step _ ih =>
    exact appendEntry_values_ne_nil _ name (step, value) ih
  | write_json v fn _ ih => exact ih
  | write_config c fn _ ih => exact ih
  | write_log fn _ ih => exact ih
  | write_text t fn _ ih => exact ih
  | close _ ih => exact ih

theorem init_log_dir_mem (cfg : LogWriterConfig) (now : DateTime) (fs : FS) :
    (LogWriter.init cfg now fs).1.log_dir ∈ (LogWriter.init cfg now fs).2.dirs := by
  simp only [LogWriter.init]
  split
  · next hd => exact List.mem_of_elem_eq_true hd
  · simp [FS.makedirs]

/-! Theorems for the claims. -/

/-- C2: when the configured run name is absent or empty, construction derives
the run name from the date and time as "YYYY_MM_DD/HH_MM_SS/", joins it onto
the base log directory to get the log directory, creates that directory
recursively when it does not already exist, and starts with an empty scalar
store. -/
theorem init_resolves_run_name (cfg : LogWriterConfig) (now : DateTime)
    (fs : FS) (h : cfg.run_name = none ∨ cfg.run_name = some "") :
    (LogWriter.init cfg now fs).1.run_name
        = strftimeDate now ++ "/" ++ strftimeTime now ++ "/"
    ∧ (LogWriter.init cfg now fs).1.log_dir
        = pathJoin cfg.log_dir (LogWriter.init cfg now fs).1.run_name
    ∧ (LogWriter.init cfg now fs).2
        = (if fs.dirExists (LogWriter.init cfg now fs).1.log_dir then fs
           else fs.makedirs (LogWriter.init cfg now fs).1.log_dir)
    ∧ (LogWriter.init cfg now fs).1.log_dir ∈ (LogWriter.init cfg now fs).2.dirs
    ∧ (LogWriter.init cfg now fs).1.run_log = [] := by
  refine ⟨?_, rfl, rfl, init_log_dir_mem cfg now fs, rfl⟩
  rcases h with h | h <;> simp [LogWriter.init, resolveRunName, h]

/-- C2 witness at a concrete configuration, clock instant and filesystem. -/
theorem init_resolves_run_name_witness :
    (LogWriter.init ⟨none, "logs"⟩ ⟨2019, 7, 4, 12, 30, 45⟩ ⟨[], []⟩).1.run_name
        = strftimeDate ⟨2019, 7, 4, 12, 30, 45⟩ ++ "/"
          ++ strftimeTime ⟨2019, 7, 4, 12, 30, 45⟩ ++ "/"
    ∧ (LogWriter.init ⟨none, "logs"⟩ ⟨2019, 7, 4, 12, 30, 45⟩ ⟨[], []⟩).1.run_log
        = [] :=
  ⟨(init_resolves_run_name ⟨none, "logs"⟩ ⟨2019, 7, 4, 12, 30, 45⟩ ⟨[], []⟩
      (Or.inl rfl)).1,
   (init_resolves_run_name ⟨none, "logs"⟩ ⟨2019, 7, 4, 12, 30, 45⟩ ⟨[], []⟩
      (Or.inl rfl)).2.2.2.2⟩

/-- C3: write_json always writes the serialized value to logDir/filename, and
the non-fatal warning is emitted exactly when the filename does not end in
the recognized JSON extension ".json"; the write proceeds in either case. -/
theorem write_json_writes_and_warns (w : LogWriter) (v : Json) (fn : String)
    (fs : FS) :
    ((w.write_json v fn fs).2.1).readFile (pathJoin w.log_dir fn)
        = some (FileContent.json v)
    ∧ ((w.write_json v fn fs).2.2 = true ↔ strEndsWith fn ".json" = false) := by
  refine ⟨readFile_writeFile fs (pathJoin w.log_dir fn) (FileContent.json v), ?_⟩
  simp [LogWriter.write_json]

/-- C3 witness: a non-".json" filename triggers the warning at a concrete
instance, yet the file content is still written. -/
theorem write_json_writes_and_warns_witness :
    ((LogWriter.mk ⟨none, "logs"⟩ "r/" "logs/r/" []).write_json Json.null
        "out.txt" ⟨[], []⟩).2.2 = true
    ∧ (((LogWriter.mk ⟨none, "logs"⟩ "r/" "logs/r/" []).write_json Json.null
        "out.txt" ⟨[], []⟩).2.1).readFile (pathJoin "logs/r/" "out.txt")
        = some (FileContent.json Json.null) :=
  ⟨(write_json_writes_and_warns (LogWriter.mk ⟨none, "logs"⟩ "r/" "logs/r/" [])
      Json.null "out.txt" ⟨[], []⟩).2.mpr (by decide),
   (write_json_writes_and_warns (LogWriter.mk ⟨none, "logs"⟩ "r/" "logs/r/" [])
      Json.null "out.txt" ⟨[], []⟩).1⟩

/-- C4: writeLog on a freshly constructed instance, with no addScalar calls,
writes the empty JSON object. -/
theorem write_log_fresh_empty_obj (cfg : LogWriterConfig) (now : DateTime)
    (fs : FS) (fn : String) :
    (((LogWriter.init cfg now fs).1.write_log fn
        (LogWriter.init cfg now fs).2).2.1).readFile
        (pathJoin (LogWriter.init cfg now fs).1.log_dir fn)
      = some (FileContent.json (Json.obj [])) :=
  readFile_writeFile _ _ _

/-- C5: write_config is definitionally the generic write_json (with default
filename "config.json"), and the stored JSON value is exactly the config
passed in, so it parses back to the same value. -/
theorem write_config_delegates (w : LogWriter) (c : Json) (fn : String)
    (fs : FS) :
    w.write_config c fn fs = w.write_json c fn fs
    ∧ w.write_config_default c fs = w.write_json c "config.json" fs
    ∧ ((w.write_config c fn fs).2.1).readFile (pathJoin w.log_dir fn)
        = some (FileContent.json c) :=
  ⟨rfl, rfl, readFile_writeFile _ _ _⟩

/-- C6: write_text stores exactly the supplied text (no trailing newline) at
logDir/filename, replacing any previous content at that path. -/
theorem write_text_verbatim (w : LogWriter) (t fn : String) (fs : FS) :
    ((w.write_text t fn fs).2).readFile (pathJoin w.log_dir fn)
        = some (FileContent.text t)
    ∧ (w.write_text t fn fs).1 = w :=
  ⟨readFile_writeFile _ _ _, rfl⟩

/-- C8: close is a no-op: any number of iterated calls leaves both the
instance and the filesystem exactly as they were. -/
theorem close_noop (w : LogWriter) (fs : FS) (n : Nat) :
    w.close fs = (w, fs) ∧ closeIter w fs n = (w, fs) := by
  refine ⟨rfl, ?_⟩
  induction n with
  | zero => rfl
  | succ k ih => simp [closeIter, LogWriter.close, ih]

/-- C9: writeLog leaves the instance (config, runName, logDir, runLog)
unchanged, a later addScalar behaves as if the write had not happened, and a
second writeLog re-serializes the full history. -/
theorem write_log_frame (w : LogWriter) (fn fn2 : String) (fs : FS)
    (n : String) (v s : ℚ) :
    (w.write_log fn fs).1 = w
    ∧ ((w.write_log fn fs).1.add_scalar n v s) = w.add_scalar n v s
    ∧ (((w.write_log fn fs).1.write_log fn2 (w.write_log fn fs).2.1).2.1).readFile
        (pathJoin w.log_dir fn2)
      = some (FileContent.json (jsonOfRunLog w.run_log)) :=
  ⟨rfl, rfl, readFile_writeFile _ _ _⟩

/-- C1: from an empty scalar store, a sequence of addScalar("x", v_i, s_i)
calls yields, on serialization via writeLog, exactly the ordered list of
[s_i, v_i] pairs under "x" — in call order, nothing reordered, dropped or
overwritten; the "x" entry does not exist before the first call and exists
exactly from the first call on. -/
theorem add_scalar_serializes_in_order (w : LogWriter) (h : w.run_log = [])
    (calls : List (ℚ × ℚ)) (hc : calls ≠ []) (fn : String) (fs : FS) :
    lookupLog w.run_log "x" = none
    ∧ (applyScalars w "x" calls).run_log
        = [("x", calls.map (fun c => (c.2, c.1)))]
    ∧ (((applyScalars w "x" calls).write_log fn fs).2.1).readFile
        (pathJoin w.log_dir fn)
      = some (FileContent.json (Json.obj
          [("x", Json.arr (calls.map (fun c =>
              Json.arr [Json.num c.2, Json.num c.1])))])) := by
  have h2 : (applyScalars w "x" calls).run_log
      = [("x", calls.map (fun c => (c.2, c.1)))] := by
    rw [applyScalars_run_log, h]
    cases calls with
    | nil => exact absurd rfl hc
    | cons c rest =>
      show List.foldl (fun log c => appendEntry log "x" (c.2, c.1))
        (appendEntry [] "x" (c.2, c.1)) rest = _
      rw [show appendEntry [] "x" (c.2, c.1) = [("x", [(c.2, c.1)])] from rfl]
      rw [foldl_appendEntry_single "x" rest [(c.2, c.1)]]
      simp
  have hpath : (applyScalars w "x" calls).log_dir = w.log_dir :=
    applyScalars_log_dir "x" calls w
  refine ⟨by rw [h]; rfl, h2, ?_⟩
  simp only [LogWriter.write_log, LogWriter.write_json]
  rw [hpath, h2]
  simpa [jsonOfRunLog, jsonOfPairs, List.map_map, Function.comp] using
    readFile_writeFile fs (pathJoin w.log_dir fn)
      (FileContent.json (jsonOfRunLog [("x", calls.map (fun c => (c.2, c.1)))]))

/-- C1 witness: two concrete calls, serialized in call order. -/
theorem add_scalar_serializes_in_order_witness :
    (((applyScalars (LogWriter.mk ⟨none, "logs"⟩ "r/" "logs/r/" []) "x"
        [(1, 2), (3, 4)]).write_log "metrics.json" ⟨["logs/r/"], []⟩).2.1).readFile
        (pathJoin "logs/r/" "metrics.json")
      = some (FileContent.json (Json.obj [("x", Json.arr
          [Json.arr [Json.num 2, Json.num 1],
           Json.arr [Json.num 4, Json.num 3]])])) :=
  (add_scalar_serializes_in_order (LogWriter.mk ⟨none, "logs"⟩ "r/" "logs/r/" [])
    rfl [(1, 2), (3, 4)] (by simp) "metrics.json" ⟨["logs/r/"], []⟩).2.2

/-- C7: in every state an instance can reach (construction followed by any
sequence of its methods), the log directory exists in the filesystem. -/
theorem log_dir_exists_invariant {w : LogWriter} {fs : FS}
    (h : Reachable w fs) : w.log_dir ∈ fs.dirs := by
  induction h with
  | init cfg now fs => exact init_log_dir_mem cfg now fs
  | add_scalar name value step _ ih => exact ih
  | write_json v fn _ ih => exact ih
  | write_config c fn _ ih => exact ih
  | write_log fn _ ih => exact ih
  | write_text t fn _ ih => exact ih
  | close _ ih => exact ih

/-- C7 witness: the invariant at a freshly constructed concrete instance. -/
theorem log_dir_exists_invariant_witness :
    (LogWriter.init ⟨none, "logs"⟩ ⟨2019, 7, 4, 12, 30, 45⟩ ⟨[], []⟩).1.log_dir
      ∈ (LogWriter.init ⟨none, "logs"⟩ ⟨2019, 7, 4, 12, 30, 45⟩ ⟨[], []⟩).2.dirs :=
  log_dir_exists_invariant
    (Reachable.init ⟨none, "logs"⟩ ⟨2019, 7, 4, 12, 30, 45⟩ ⟨[], []⟩)

/-- C10: addScalar changes only the entry for its own metric name — every
other name's sequence and the config, run name and log directory are
untouched — and in every reachable state each stored name has a non-empty
pair list, so a serialized log never maps a name to an empty array. -/
theorem add_scalar_frame_properties (w : LogWriter) (name : String)
    (v s : ℚ) :
    (∀ m, m ≠ name →
        lookupLog (w.add_scalar name v s).run_log m = lookupLog w.run_log m)
    ∧ (w.add_scalar name v s).config = w.config
    ∧ (w.add_scalar name v s).run_name = w.run_name
    ∧ (w.add_scalar name v s).log_dir = w.log_dir
    ∧ (∀ fs, Reachable w fs →
        ∀ e ∈ w.run_log, e.2 ≠ [] ∧ jsonOfPairs e.2 ≠ Json.arr []) := by
  refine ⟨?_, rfl, rfl, rfl, ?_⟩
  · intro m hm
    exact lookupLog_appendEntry_ne w.run_log name m (s, v) hm
  · intro fs hr e he
    have h1 := reachable_values_ne_nil hr e he
    refine ⟨h1, ?_⟩
    cases he2 : e.2 with
    | nil => exact absurd he2 h1
    | cons p ps => simp [jsonOfPairs]

/-- C10 witness: a concrete foreign metric name is untouched. -/
theorem add_scalar_frame_properties_witness :
    lookupLog ((LogWriter.mk ⟨none, "logs"⟩ "r/" "logs/r/"
        [("b", [(5, 6)])]).add_scalar "a" 1 2).run_log "b"
      = lookupLog (LogWriter.mk ⟨none, "logs"⟩ "r/" "logs/r/"
        [("b", [(5, 6)])]).run_log "b" :=
  (add_scalar_frame_properties (LogWriter.mk ⟨none, "logs"⟩ "r/" "logs/r/"
        [("b", [(5, 6)])]) "a" 1 2).1 "b" (by decide)
